import Mathlib

/-!
Shallow embedding of the rietveldv2 CAS / diff core.

Python strings (Python 2 `str`, i.e. byte strings) are modelled as `List Nat`
(one `Nat` per byte); unicode strings as `List Nat` of code points.  Python
exceptions are modelled by the `PyError` type together with `Except`.
Sources embedded here:
  - src/framework/utils.py   (constant_time_equals, LazyLineSplitter)
  - src/cas/models.py        (CAS_ID, CASEntry, create_async, verify_async,
                              prove_ownership)
  - src/cas/types.py         (CASTypeRegistry: wrapped validators,
                              validate_async)
  - src/cas/default_content_types.py (the default TYPE_MAP)
  - src/cas/exceptions.py, src/framework/exceptions.py (error taxonomy)
  - src/codereviewv2/diff.py (module-local LazyLineSplitter, Diffable,
                              DiffablePair)
Library functions the code calls (hashlib.sha256/sha1, hmac, str.find,
str.decode, re match for the one CAS_ID pattern) are modelled concretely
below, next to their first use.
-/

/-- Python exception kinds that the embedded code can raise.  `attributeError`
carries the name of the missing attribute (two places in the source reference
exception classes that do not exist in the referenced module; executing those
`raise` statements produces an `AttributeError` instead of the named class). -/
inductive PyError where
  | assertionError
  | attributeError (attr : String)
  | typeError
  | keyError
  | unicodeDecodeError
  | badData
  | forbidden
  | notFound
  | casError (msg : List Nat)
  | casValidationError
  | casUnknownDataType
deriving DecidableEq, Repr

/-- ASCII bytes of a Lean string literal (all literals used are ASCII). -/
def strBytes (s : String) : List Nat := s.toList.map Char.toNat

/-- Python `str.lower()` for byte strings (ASCII case folding). -/
def pyLower (s : List Nat) : List Nat :=
  s.map (fun c => if 65 ≤ c ∧ c ≤ 90 then c + 32 else c)

/-- Value of one hex digit character (`[0-9a-fA-F]`), `none` otherwise. -/
def hexVal (c : Nat) : Option Nat :=
  if 48 ≤ c ∧ c ≤ 57 then some (c - 48)
  else if 97 ≤ c ∧ c ≤ 102 then some (c - 87)
  else if 65 ≤ c ∧ c ≤ 70 then some (c - 55)
  else none

/-- The character class `[0-9a-fA-F]` of the CAS_ID regular expression. -/
def isHexChar (c : Nat) : Bool := (hexVal c).isSome

/-- Lower-case hex character of a nibble (0–15): Python `"%x"` digits. -/
def hexDigitChar (n : Nat) : Nat := if n < 10 then 48 + n else 87 + n

/-- Python `bytes.encode('hex')`: two lower-case hex characters per byte. -/
def hexEncode (bs : List Nat) : List Nat :=
  (bs.map (fun b => [hexDigitChar (b / 16), hexDigitChar (b % 16)])).flatten

/-- Python `str.decode('hex')`: inverse of `hexEncode`; fails (Python raises
`TypeError`) on odd length or a non-hex character. -/
def hexDecode : List Nat → Option (List Nat)
  | [] => some []
  | [_] => none
  | c1 :: c2 :: rest =>
    match hexVal c1, hexVal c2, hexDecode rest with
    | some v1, some v2, some bs => some ((v1 * 16 + v2) :: bs)
    | _, _, _ => none

/-- Decimal digit characters of a natural number, most significant first
(Python `str(n)` for `n ≥ 0`).  Structural fuel: `n` itself bounds the number
of divisions by 10. -/
def decDigitsAux : Nat → Nat → List Nat
  | 0, _ => []
  | fuel + 1, n =>
    if n < 10 then [48 + n]
    else decDigitsAux fuel (n / 10) ++ [48 + n % 10]

/-- Python `str(n)` for a natural number. -/
def decDigits (n : Nat) : List Nat := decDigitsAux (n + 1) n

/-- Python `str(i)` for an int (a possibly negative size from `from_dict`). -/
def pyStr (i : Int) : List Nat :=
  if i < 0 then 45 :: decDigits i.natAbs else decDigits i.toNat

/-- ASCII decimal digit test: the regex class `\d`. -/
def isDigitChar (c : Nat) : Bool := 48 ≤ c && c ≤ 57

/-- Python `int(s)` on a non-empty all-digit string. -/
def natFromDigits (ds : List Nat) : Nat :=
  ds.foldl (fun acc d => acc * 10 + (d - 48)) 0

/-- Python `data.find(sub, start)` for a non-empty `sub`: the least index
`i ≥ start` with `sub` occurring at `i` (entirely inside `data`), else `none`
(Python returns -1).  Fuel-structured scan. -/
def strFindAux (data sub : List Nat) : Nat → Nat → Option Nat
  | _, 0 => none
  | start, fuel + 1 =>
    if start + sub.length ≤ data.length then
      if sub.isPrefixOf (data.drop start) then some start
      else strFindAux data sub (start + 1) fuel
    else none

/-- Python `data.find(sub, start)` (for the non-empty `sub` used here). -/
def strFind (data sub : List Nat) (start : Nat) : Option Nat :=
  strFindAux data sub start (data.length + 1)

/-- Python slice `data[b:e]` for `b ≤ e` (the only shape used). -/
def pySlice (data : List Nat) (p : Nat × Nat) : List Nat :=
  (data.drop p.1).take (p.2 - p.1)

/-- The offsets loop of framework.utils.LazyLineSplitter.__init__
(src/framework/utils.py lines 46-56): each found line ending closes the pair
`(start, end + len(lineending))`; a tail without a line ending closes
`(start, len(data))`.  Fuel: for a non-empty `lineending` the loop advances
`start` every iteration, so `data.length + 1` steps always suffice; for the
empty line ending the Python loop does not terminate and this model returns
after the fuel is spent. -/
def utilsOffsets (data le : List Nat) : Nat → Nat → List (Nat × Nat)
  | 0, _ => []
  | fuel + 1, start =>
    if start < data.length then
      match strFind data le start with
      | none => [(start, data.length)]
      | some e => (start, e + le.length) :: utilsOffsets data le fuel (e + le.length)
    else []

/-- framework.utils.LazyLineSplitter: the data plus the computed offsets. -/
structure LazyLineSplitter where
  rawData : List Nat
  offs : List (Nat × Nat)
deriving DecidableEq, Repr

/-- Constructor of framework.utils.LazyLineSplitter. -/
def LazyLineSplitter.ofData (data le : List Nat) : LazyLineSplitter :=
  ⟨data, utilsOffsets data le (data.length + 1) 0⟩

/-- `[splitter[i] for i in range(len(splitter))]`: every line, in order, as
sliced by `__getitem__` (src/framework/utils.py lines 62-66). -/
def LazyLineSplitter.toLines (s : LazyLineSplitter) : List (List Nat) :=
  s.offs.map (pySlice s.rawData)

/-- The offsets loop of the module-local LazyLineSplitter in
src/codereviewv2/diff.py (lines 30-38).  Unlike the framework version, when a
line ending is found the source executes `self._offsets.append(start, end)`:
`list.append` takes exactly one argument, so Python raises a `TypeError` at
the first found line ending.  The no-occurrence tail append is well formed. -/
def diffOffsets (data le : List Nat) : Nat → Nat → Except PyError (List (Nat × Nat))
  | 0, _ => .ok []
  | _ + 1, start =>
    if start < data.length then
      match strFind data le start with
      | none => .ok [(start, data.length)]
      | some _ => .error .typeError
    else .ok []

/-- Lines of codereviewv2.diff.LazyLineSplitter, when its construction does
not raise. -/
def diffSplitLines (data le : List Nat) : Except PyError (List (List Nat)) :=
  (diffOffsets data le (data.length + 1) 0).map (fun offs => offs.map (pySlice data))

/-! ## hashlib / hmac models (SHA-256, SHA-1, HMAC)

`cas/models.py` uses `hashlib.sha256` (`CAS_ID.HASH_ALGO`), `hashlib.sha1`
(git blob hashes) and `hmac.new` (salt hashes and ownership proofs).  These
library functions are implemented here over byte lists, all 32-bit arithmetic
done in `Nat` modulo `2 ^ 32`. -/

/-- Truncate to a 32-bit word. -/
def w32 (n : Nat) : Nat := n % 4294967296

/-- 32-bit rotate right (input assumed `< 2 ^ 32`). -/
def rotr32 (x n : Nat) : Nat := w32 ((x >>> n) ||| (x <<< (32 - n)))

/-- 32-bit rotate left (input assumed `< 2 ^ 32`). -/
def rotl32 (x n : Nat) : Nat := w32 ((x <<< n) ||| (x >>> (32 - n)))

/-- Big-endian bytes of a 32-bit word. -/
def be32 (w : Nat) : List Nat :=
  [w / 16777216 % 256, w / 65536 % 256, w / 256 % 256, w % 256]

/-- Big-endian bytes of a 64-bit value (the message bit length). -/
def be64 (n : Nat) : List Nat := be32 (w32 (n >>> 32)) ++ be32 (w32 n)

/-- 32-bit big-endian words of a 64-byte block. -/
def wordsOfBlock : List Nat → List Nat
  | b0 :: b1 :: b2 :: b3 :: rest => (((b0 * 256 + b1) * 256 + b2) * 256 + b3) :: wordsOfBlock rest
  | _ => []

/-- Split into 64-byte chunks (fuel-structured; fuel `≥` number of chunks). -/
def chunks64 : Nat → List Nat → List (List Nat)
  | 0, _ => []
  | _ + 1, [] => []
  | fuel + 1, l => l.take 64 :: chunks64 fuel (l.drop 64)

/-- MD-style padding shared by SHA-256 and SHA-1: `0x80`, zeros to 56 mod 64,
then the 64-bit big-endian bit length. -/
def mdPad (msg : List Nat) : List Nat :=
  msg ++ 128 :: List.replicate ((119 - msg.length % 64) % 64) 0 ++ be64 (8 * msg.length)

/-- SHA-256 round constants. -/
def sha256K : List Nat :=
  [1116352408, 1899447441, 3049323471, 3921009573,
   961987163, 1508970993, 2453635748, 2870763221,
   3624381080, 310598401, 607225278, 1426881987,
   1925078388, 2162078206, 2614888103, 3248222580,
   3835390401, 4022224774, 264347078, 604807628,
   770255983, 1249150122, 1555081692, 1996064986,
   2554220882, 2821834349, 2952996808, 3210313671,
   3336571891, 3584528711, 113926993, 338241895,
   666307205, 773529912, 1294757372, 1396182291,
   1695183700, 1986661051, 2177026350, 2456956037,
   2730485921, 2820302411, 3259730800, 3345764771,
   3516065817, 3600352804, 4094571909, 275423344,
   430227734, 506948616, 659060556, 883997877,
   958139571, 1322822218, 1537002063, 1747873779,
   1955562222, 2024104815, 2227730452, 2361852424,
   2428436474, 2756734187, 3204031479, 3329325298]

/-- SHA-256 working state (eight 32-bit words). -/
structure H8 where
  a : Nat
  b : Nat
  c : Nat
  d : Nat
  e : Nat
  f : Nat
  g : Nat
  hh : Nat
deriving DecidableEq, Repr

/-- SHA-256 initial state. -/
def sha256Init : H8 :=
  ⟨1779033703, 3144134277, 1013904242, 2773480762,
   1359893119, 2600822924, 528734635, 1541459225⟩

/-- SHA-256 message-schedule extension: append one word `k` times. -/
def schedExtend : Nat → List Nat → List Nat
  | 0, ws => ws
  | k + 1, ws =>
    let s0 :=
      let x := ws.getD (ws.length - 15) 0
      (rotr32 x 7) ^^^ (rotr32 x 18) ^^^ (x >>> 3)
    let s1 :=
      let x := ws.getD (ws.length - 2) 0
      (rotr32 x 17) ^^^ (rotr32 x 19) ^^^ (x >>> 10)
    schedExtend k
      (ws ++ [w32 (s1 + ws.getD (ws.length - 7) 0 + s0 + ws.getD (ws.length - 16) 0)])

/-- One SHA-256 compression round; `kw` pairs a round constant with a
schedule word. -/
def sha256Round (st : H8) (kw : Nat × Nat) : H8 :=
  let s1 := (rotr32 st.e 6) ^^^ (rotr32 st.e 11) ^^^ (rotr32 st.e 25)
  let ch := (st.e &&& st.f) ^^^ ((st.e ^^^ 4294967295) &&& st.g)
  let t1 := w32 (st.hh + s1 + ch + kw.1 + kw.2)
  let s0 := (rotr32 st.a 2) ^^^ (rotr32 st.a 13) ^^^ (rotr32 st.a 22)
  let mj := (st.a &&& st.b) ^^^ (st.a &&& st.c) ^^^ (st.b &&& st.c)
  let t2 := w32 (s0 + mj)
  ⟨w32 (t1 + t2), st.a, st.b, st.c, w32 (st.d + t1), st.e, st.f, st.g⟩

/-- SHA-256 compression of one 64-byte block. -/
def sha256Block (st : H8) (block : List Nat) : H8 :=
  let ws := schedExtend 48 (wordsOfBlock block)
  let fin := (sha256K.zip ws).foldl sha256Round st
  ⟨w32 (st.a + fin.a), w32 (st.b + fin.b), w32 (st.c + fin.c), w32 (st.d + fin.d),
   w32 (st.e + fin.e), w32 (st.f + fin.f), w32 (st.g + fin.g), w32 (st.hh + fin.hh)⟩

/-- `hashlib.sha256(msg).digest()`: 32 bytes. -/
def sha256 (msg : List Nat) : List Nat :=
  let padded := mdPad msg
  let st := (chunks64 (padded.length + 1) padded).foldl sha256Block sha256Init
  be32 st.a ++ be32 st.b ++ be32 st.c ++ be32 st.d ++
  be32 st.e ++ be32 st.f ++ be32 st.g ++ be32 st.hh

/-- SHA-1 working state (five 32-bit words). -/
structure H5 where
  a : Nat
  b : Nat
  c : Nat
  d : Nat
  e : Nat
deriving DecidableEq, Repr

/-- SHA-1 initial state. -/
def sha1Init : H5 := ⟨1732584193, 4023233417, 2562383102, 271733878, 3285377520⟩

/-- SHA-1 message-schedule extension to 80 words. -/
def sha1Extend : Nat → List Nat → List Nat
  | 0, ws => ws
  | k + 1, ws =>
    let x := (ws.getD (ws.length - 3) 0) ^^^ (ws.getD (ws.length - 8) 0) ^^^
             (ws.getD (ws.length - 14) 0) ^^^ (ws.getD (ws.length - 16) 0)
    sha1Extend k (ws ++ [rotl32 x 1])

/-- SHA-1 round function by round index. -/
def sha1F (t b c d : Nat) : Nat :=
  if t < 20 then (b &&& c) ||| ((b ^^^ 4294967295) &&& d)
  else if t < 40 then b ^^^ c ^^^ d
  else if t < 60 then (b &&& c) ||| (b &&& d) ||| (c &&& d)
  else b ^^^ c ^^^ d

/-- SHA-1 round constant by round index. -/
def sha1KOf (t : Nat) : Nat :=
  if t < 20 then 1518500249
  else if t < 40 then 1859775393
  else if t < 60 then 2400959708
  else 3395469782

/-- One SHA-1 round; `tw` pairs the round index with a schedule word. -/
def sha1Round (st : H5) (tw : Nat × Nat) : H5 :=
  let tmp := w32 (rotl32 st.a 5 + sha1F tw.1 st.b st.c st.d + st.e + sha1KOf tw.1 + tw.2)
  ⟨tmp, st.a, rotl32 st.b 30, st.c, st.d⟩

/-- SHA-1 compression of one 64-byte block. -/
def sha1Block (st : H5) (block : List Nat) : H5 :=
  let ws := sha1Extend 64 (wordsOfBlock block)
  let fin := ((List.range 80).zip ws).foldl sha1Round st
  ⟨w32 (st.a + fin.a), w32 (st.b + fin.b), w32 (st.c + fin.c),
   w32 (st.d + fin.d), w32 (st.e + fin.e)⟩

/-- `hashlib.sha1(msg).digest()`: 20 bytes. -/
def sha1 (msg : List Nat) : List Nat :=
  let padded := mdPad msg
  let st := (chunks64 (padded.length + 1) padded).foldl sha1Block sha1Init
  be32 st.a ++ be32 st.b ++ be32 st.c ++ be32 st.d ++ be32 st.e

/-- `hmac.new(key, ...)` key preparation (SHA-256 digestmod, block size 64):
keys longer than one block are hashed, then the key is zero-padded to the
block size. -/
def hmacPadKey (key : List Nat) : List Nat :=
  let k0 := if key.length > 64 then sha256 key else key
  k0 ++ List.replicate (64 - k0.length) 0

/-- `hmac.new(key, msg, hashlib.sha256).digest()`. -/
def hmacSha256 (key msg : List Nat) : List Nat :=
  let kp := hmacPadKey key
  sha256 ((kp.map (fun b => b ^^^ 92)) ++ sha256 ((kp.map (fun b => b ^^^ 54)) ++ msg))

/-- framework.utils.constant_time_equals (src/framework/utils.py lines
34-40): length check, then an or-accumulated xor over the zipped strings. -/
def constant_time_equals (a b : List Nat) : Bool :=
  if a.length ≠ b.length then false
  else decide ((a.zip b).foldl (fun acc p => acc ||| (p.1 ^^^ p.2)) 0 = 0)

/-! ## CAS_ID (src/cas/models.py lines 88-138, 270-274) -/

/-- cas.models.CAS_ID: `csum` is stored hex-encoded (`csum.encode('hex')`),
`size` is a Python int (`from_dict` can receive any int), `content_type` and
`charset` are stored lower-cased, and a falsy charset (None or the empty
string) is normalised to `none`. -/
structure CAS_ID where
  csum : List Nat
  size : Int
  content_type : List Nat
  charset : Option (List Nat)
deriving DecidableEq, Repr

/-- CAS_ID.__init__ (src/cas/models.py lines 97-110): asserts the three
truthiness checks and the raw checksum width, then normalises the fields.
Assertion failures are Python `AssertionError`s. -/
def CAS_ID.mk? (csum : List Nat) (size : Int) (content_type : List Nat)
    (charset : Option (List Nat)) : Except PyError CAS_ID :=
  if csum = [] ∨ size = 0 ∨ content_type = [] then .error .assertionError
  else if csum.length ≠ 32 then .error .assertionError
  else .ok ⟨hexEncode csum, size, pyLower content_type,
    match charset with
    | some c => if c = [] then none else some (pyLower c)
    | none => none⟩

/-- `re.match` of the anchored-at-start pattern
`([0-9a-fA-F]{64}):(\d+):([^:]*)(?::(.*))?` (CAS_ID.REGEX with a 32-byte
digest).  Returns the four groups; group 4 is `none` when the optional
group did not participate.  `re.match` only needs the pattern to match a
prefix of the input, and `.` does not match a newline, so group 4 stops at
the first newline and any remaining input is ignored. -/
def casIdScan (s : List Nat) :
    Option (List Nat × List Nat × List Nat × Option (List Nat)) :=
  let g1 := s.take 64
  if g1.length = 64 ∧ g1.all isHexChar then
    match s.drop 64 with
    | 58 :: r1 =>
      let g2 := r1.takeWhile isDigitChar
      if g2 = [] then none
      else
        match r1.dropWhile isDigitChar with
        | 58 :: r2 =>
          let g3 := r2.takeWhile (fun c => !(c == 58))
          (match r2.dropWhile (fun c => !(c == 58)) with
           | 58 :: r3 => some (g1, g2, g3, some (r3.takeWhile (fun c => !(c == 10))))
           | _ => some (g1, g2, g3, none))
        | _ => none
    | _ => none
  else none

/-- CAS_ID.from_string (src/cas/models.py lines 115-123): `assert match is
not None` makes a failed match an `AssertionError` (not `BadData`); the
checksum group is hex-decoded and the int group parsed, then the constructor
runs.  The `hexDecode` failure arm is unreachable (the regex guarantees 64
hex characters). -/
def CAS_ID.from_string (s : List Nat) : Except PyError CAS_ID :=
  match casIdScan s with
  | none => .error .assertionError
  | some (g1, g2, g3, g4) =>
    match hexDecode g1 with
    | none => .error .typeError
    | some raw => CAS_ID.mk? raw (Int.ofNat (natFromDigits g2)) g3 g4

/-- A Python dict value as seen by CAS_ID.from_dict: a (byte) string or an
int. -/
inductive DVal where
  | s (v : List Nat)
  | i (v : Int)
deriving DecidableEq, Repr

/-- The dict argument of CAS_ID.from_dict: each field holds the value of the
corresponding key when present. -/
structure CasDict where
  csum : Option DVal
  size : Option DVal
  content_type : Option DVal
  charset : Option DVal
deriving DecidableEq, Repr

/-- The body of CAS_ID.from_dict's `try` block (src/cas/models.py lines
132-136): `dct['csum'].decode('hex')` (KeyError on a missing key,
AttributeError on an int, TypeError on a bad hex string), `dct['size']`,
`dct['content_type']`, `dct.get('charset')`, then the constructor with its
isinstance/truthiness assertions. -/
def casIdOfDict (d : CasDict) : Except PyError CAS_ID := do
  let csumV ← match d.csum with
    | none => .error .keyError
    | some (.s v) => .ok v
    | some (.i _) => .error (.attributeError ("decode"))
  let raw ← match hexDecode csumV with
    | none => .error .typeError
    | some raw => .ok raw
  let sizeV ← match d.size with
    | none => .error .keyError
    | some v => .ok v
  let ctV ← match d.content_type with
    | none => .error .keyError
    | some v => .ok v
  let size ← match sizeV with
    | .i n => .ok n
    | .s _ => .error .assertionError
  let ct ← match ctV with
    | .s v => .ok v
    | .i _ => .error .assertionError
  let cs ← match d.charset with
    | none => .ok none
    | some (.s v) => .ok (some v)
    | some (.i _) => .error .assertionError
  CAS_ID.mk? raw size ct cs

/-- CAS_ID.from_dict (src/cas/models.py lines 130-138): the whole body runs
under `except Exception`, re-raised as `BadData('Malformed CAS ID: ...')`. -/
def CAS_ID.from_dict (d : CasDict) : Except PyError CAS_ID :=
  match casIdOfDict d with
  | .ok c => .ok c
  | .error _ => .error .badData

/-- CAS_ID.__str__ (src/cas/models.py lines 270-274):
`"csum:size:content_type"` plus `":charset"` when the charset is truthy. -/
def CAS_ID.toString (c : CAS_ID) : List Nat :=
  c.csum ++ 58 :: pyStr c.size ++ 58 :: c.content_type ++
  (match c.charset with
   | some cs => if cs = [] then [] else 58 :: cs
   | none => [])

/-! ## Datastore substrate and CASEntry (src/cas/models.py lines 29-85) -/

/-- cas.models.CASEntry: the persisted record (key = the CAS_ID's canonical
string). -/
structure CASEntryM where
  generation : Nat
  salt : List Nat
  salt_hash : List Nat
  git_hash : List Nat
deriving DecidableEq, Repr

/-- The key-value substrate: CASEntry rows and their CASDataInline children
(id 1), both keyed by the owning CAS_ID's canonical string. -/
structure Datastore where
  entries : List (List Nat × CASEntryM)
  inline_data : List (List Nat × List Nat)
deriving DecidableEq, Repr

/-- `self.key.get_async()`: entry lookup by canonical-string key. -/
def Datastore.lookupEntry (st : Datastore) (k : List Nat) : Option CASEntryM :=
  (st.entries.find? (fun p => p.1 == k)).map (fun p => p.2)

/-- CASEntry.prove_ownership (src/cas/models.py lines 76-80):
`hmac.new(xsrf.assert_xsrf(), self.salt_hash, CAS_ID.HASH_ALGO).hexdigest()`
compared with the submitted proof by framework.utils.constant_time_equals.
The session secret returned by `xsrf.assert_xsrf()` is passed explicitly. -/
def CASEntryM.prove_ownership (e : CASEntryM) (xsrfSecret proof : List Nat) : Bool :=
  constant_time_equals proof (hexEncode (hmacSha256 xsrfSecret e.salt_hash))

/-! ## Type registry (src/cas/types.py) -/

/-- A Python value flowing through validators: raw bytes, a decoded unicode
string, or a parsed document. -/
inductive PyVal where
  | bytes (bs : List Nat)
  | uni (cps : List Nat)
  | jsonDoc (cps : List Nat)
  | xmlDoc (tag : List Nat)
deriving DecidableEq, Repr

/-- The element sequence a value iterates/slices as. -/
def pyValSeq : PyVal → List Nat
  | .bytes bs => bs
  | .uni cps => cps
  | .jsonDoc cps => cps
  | .xmlDoc tag => tag

/-- `CAS_REFERENCES` of a validated value (`getattr(data, 'CAS_REFERENCES',
())`): none of the default content types' results carries the attribute, so
the default is always taken. -/
def casReferences : PyVal → List CAS_ID := fun _ => []

/-- The `wrapped` closure built by CASTypeRegistry.__call__.inner
(src/cas/types.py lines 84-98): run the inner validator `f`; substitute the
input for a `None` result; catch ANY raised exception (`except:`) and
re-raise the generic `CASValidationError("Invalid ...")`. -/
def wrapValidator (f : PyVal → Except PyError (Option PyVal)) (data : PyVal) :
    Except PyError PyVal :=
  match f data with
  | .error _ => .error .casValidationError
  | .ok none => .ok data
  | .ok (some r) => .ok r

/-- A registry value: the wrapped validator plus its
`wrapped.required_charsets` attribute (src/cas/types.py lines 99-100). -/
structure WValidator where
  run : PyVal → Except PyError PyVal
  required_charsets : List (List Nat)

/-- A registry key: `(DATA, name)` or `(CHARSET, name)`
(src/cas/types.py lines 45-46, 79-82). -/
inductive RegKey where
  | dataK (name : List Nat)
  | charsetK (name : List Nat)
deriving DecidableEq, Repr

/-- cas.types.CASTypeRegistry is a dict from keys to wrapped validators. -/
def CASTypeRegistry := List (RegKey × WValidator)

/-- Dict lookup in a registry. -/
def regFind (tm : CASTypeRegistry) (k : RegKey) : Option WValidator :=
  (tm.find? (fun p => p.1 == k)).map (fun p => p.2)

/-- Truthiness of the `charset` argument (`if charset:`): a non-empty
string. -/
def csTruthy : Option (List Nat) → Bool
  | some c => !c.isEmpty
  | none => false

/-- The `CAS_REFERENCES` resolution step of validate_async (src/cas/types.py
lines 129-131): with `check_refs`, every referenced entry must exist
(`assert None not in ...`). -/
def checkRefsStep (v : PyVal) (check_refs : Bool) (store : Datastore) :
    Except PyError PyVal :=
  if check_refs then
    if (casReferences v).all (fun cid => (store.lookupEntry cid.toString).isSome)
    then .ok v
    else .error .assertionError
  else .ok v

/-- CASTypeRegistry.validate_async (src/cas/types.py lines 108-133).  An
unknown data type raises `exceptions.CASUnknownDataType` (which exists in
cas/exceptions.py).  A truthy charset missing from the registry executes
`raise exceptions.CASUnknownCharset(...)`, and an unsatisfied
`required_charsets` executes `raise exceptions.CASCharsetInadequate(...)`;
NEITHER class exists in cas/exceptions.py, so evaluating those attribute
accesses raises `AttributeError` instead.  Otherwise: charset decoder first,
then the data-type validator, then reference resolution. -/
def validate_async (tm : CASTypeRegistry) (data : List Nat) (data_type : List Nat)
    (charset : Option (List Nat)) (check_refs : Bool) (store : Datastore) :
    Except PyError PyVal :=
  match regFind tm (.dataK data_type) with
  | none => .error .casUnknownDataType
  | some dv =>
    if csTruthy charset then
      match regFind tm (.charsetK (charset.getD [])) with
      | none => .error (.attributeError ("CASUnknownCharset"))
      | some cv =>
        if dv.required_charsets ≠ [] ∧ ¬ (charset.getD []) ∈ dv.required_charsets then
          .error (.attributeError ("CASCharsetInadequate"))
        else
          match cv.run (.bytes data) with
          | .error e => .error e
          | .ok d1 =>
            match dv.run d1 with
            | .error e => .error e
            | .ok d2 => checkRefsStep d2 check_refs store
    else
      if dv.required_charsets ≠ [] then .error (.attributeError ("CASCharsetInadequate"))
      else
        match dv.run (.bytes data) with
        | .error e => .error e
        | .ok d2 => checkRefsStep d2 check_refs store

/-! ## Default content types (src/cas/default_content_types.py) -/

/-- Strict UTF-8 decoder (`data.decode('utf-8')`), fuel-structured.
Multi-byte sequences follow the usual continuation-byte ranges; overlong
encodings are rejected.  (Python 2's codec is laxer about surrogates; no
verified claim depends on non-ASCII inputs.) -/
def utf8DecodeAux : Nat → List Nat → Option (List Nat)
  | _, [] => some []
  | 0, _ => none
  | fuel + 1, b :: rest =>
    if b < 128 then (utf8DecodeAux fuel rest).map (fun t => b :: t)
    else if 194 ≤ b ∧ b ≤ 223 then
      match rest with
      | b2 :: r2 =>
        if 128 ≤ b2 ∧ b2 ≤ 191 then
          (utf8DecodeAux fuel r2).map (fun t => ((b - 192) * 64 + (b2 - 128)) :: t)
        else none
      | _ => none
    else if 224 ≤ b ∧ b ≤ 239 then
      match rest with
      | b2 :: b3 :: r2 =>
        if (if b = 224 then 160 ≤ b2 ∧ b2 ≤ 191 else 128 ≤ b2 ∧ b2 ≤ 191) ∧
           128 ≤ b3 ∧ b3 ≤ 191 then
          (utf8DecodeAux fuel r2).map
            (fun t => ((b - 224) * 4096 + (b2 - 128) * 64 + (b3 - 128)) :: t)
        else none
      | _ => none
    else if 240 ≤ b ∧ b ≤ 244 then
      match rest with
      | b2 :: b3 :: b4 :: r2 =>
        if (if b = 240 then 144 ≤ b2 ∧ b2 ≤ 191 else
            if b = 244 then 128 ≤ b2 ∧ b2 ≤ 143 else 128 ≤ b2 ∧ b2 ≤ 191) ∧
           128 ≤ b3 ∧ b3 ≤ 191 ∧ 128 ≤ b4 ∧ b4 ≤ 191 then
          (utf8DecodeAux fuel r2).map
            (fun t => ((b - 240) * 262144 + (b2 - 128) * 4096 +
                       (b3 - 128) * 64 + (b4 - 128)) :: t)
        else none
      | _ => none
    else none

/-- `data.decode('utf-8')`. -/
def utf8Decode (bs : List Nat) : Option (List Nat) := utf8DecodeAux (bs.length + 1) bs

/-- charset_utf8 (src/cas/default_content_types.py lines 23-25). -/
def charset_utf8F (v : PyVal) : Except PyError (Option PyVal) :=
  match v with
  | .bytes bs =>
    match utf8Decode bs with
    | some cps => .ok (some (.uni cps))
    | none => .error .unicodeDecodeError
  | _ => .error .typeError

/-- charset_ascii (src/cas/default_content_types.py lines 28-30):
`data.decode('ascii')` accepts exactly byte values below 128. -/
def charset_asciiF (v : PyVal) : Except PyError (Option PyVal) :=
  match v with
  | .bytes bs =>
    if bs.all (fun b => b < 128) then .ok (some (.uni bs))
    else .error .unicodeDecodeError
  | _ => .error .typeError

/-- text_plain (src/cas/default_content_types.py lines 33-38):
`LazyLineSplitter(data, '\n')`, assert every line is at most 300 elements
long, and return the data unchanged. -/
def text_plainF (v : PyVal) : Except PyError (Option PyVal) :=
  let splitter := LazyLineSplitter.ofData (pyValSeq v) [10]
  if splitter.toLines.all (fun l => decide (l.length ≤ 300)) then .ok (some v)
  else .error .assertionError

/-- image_gif (lines 41-43): `assert data.startswith(("GIF87a", "GIF89a"))`.
Returns None, so the wrapper substitutes the input. -/
def image_gifF (v : PyVal) : Except PyError (Option PyVal) :=
  if (strBytes ("GIF87a")).isPrefixOf (pyValSeq v) ||
     (strBytes ("GIF89a")).isPrefixOf (pyValSeq v) then .ok none
  else .error .assertionError

/-- image_png (lines 46-48): the 8-byte PNG magic. -/
def image_pngF (v : PyVal) : Except PyError (Option PyVal) :=
  if [137, 80, 78, 71, 13, 10, 26, 10].isPrefixOf (pyValSeq v) then .ok none
  else .error .assertionError

/-- image_jpeg (lines 51-53): the 2-byte JPEG magic. -/
def image_jpegF (v : PyVal) : Except PyError (Option PyVal) :=
  if [255, 216].isPrefixOf (pyValSeq v) then .ok none
  else .error .assertionError

/-- Whitespace skip used by the approximate JSON/XML library models. -/
def wsSkip (cs : List Nat) : List Nat :=
  cs.dropWhile (fun c => c == 32 || c == 9 || c == 10 || c == 13)

/-- Skip the remainder of a JSON string after the opening quote. -/
def jsonSkipString : Nat → List Nat → Option (List Nat)
  | 0, _ => none
  | fuel + 1, cs =>
    match cs with
    | [] => none
    | 34 :: rest => some rest
    | 92 :: _ :: rest => jsonSkipString fuel rest
    | _ :: rest => jsonSkipString fuel rest

/-- Bracket/string balance scan for the approximate `json.loads` model. -/
def jsonScan : Nat → List Nat → List Nat → Bool
  | 0, _, _ => false
  | fuel + 1, stack, cs =>
    match cs with
    | [] => stack.isEmpty
    | 34 :: rest =>
      match jsonSkipString (rest.length + 1) rest with
      | some r => jsonScan fuel stack r
      | none => false
    | 91 :: rest => jsonScan fuel (93 :: stack) rest
    | 123 :: rest => jsonScan fuel (125 :: stack) rest
    | c :: rest =>
      if c == 93 || c == 125 then
        match stack with
        | top :: st2 => top == c && jsonScan fuel st2 rest
        | [] => false
      else jsonScan fuel stack rest

/-- Approximate model of the library call `json.loads`: a non-blank document
with balanced brackets and well-terminated strings.  No verified claim
depends on this body — only on the registry key `application/json` and its
required charsets. -/
def jsonLoadsOk (cs : List Nat) : Bool :=
  !(wsSkip cs).isEmpty && jsonScan (cs.length + 1) [] cs

/-- application_json (lines 64-67): `json.loads(data)` on the decoded text. -/
def application_jsonF (v : PyVal) : Except PyError (Option PyVal) :=
  if jsonLoadsOk (pyValSeq v) then .ok (some (.jsonDoc (pyValSeq v)))
  else .error .typeError

/-- Approximate model of the library call `lxml.etree.fromstring`: the root
element's tag is the name-run after the first `<`.  No verified claim depends
on this body — only on the registry keys `application/xml` / `image/svg+xml`
and their required charsets. -/
def xmlRootTag (cs : List Nat) : Option (List Nat) :=
  match wsSkip cs with
  | 60 :: rest =>
    let tag := rest.takeWhile (fun c =>
      (97 ≤ c && c ≤ 122) || (65 ≤ c && c ≤ 90) || (48 ≤ c && c ≤ 57))
    if tag.isEmpty then none else some tag
  | _ => none

/-- application_xml (lines 75-78): `ElementTree.fromstring(data)`. -/
def application_xmlF (v : PyVal) : Except PyError (Option PyVal) :=
  match xmlRootTag (pyValSeq v) with
  | some tag => .ok (some (.xmlDoc tag))
  | none => .error .typeError

/-- image_svg_xml (lines 56-61): run the registered (wrapped)
`application/xml` validator, then `assert root.tag == 'svg'`. -/
def image_svg_xmlF (v : PyVal) : Except PyError (Option PyVal) :=
  match wrapValidator application_xmlF v with
  | .error e => .error e
  | .ok r =>
    match r with
    | .xmlDoc tag => if tag = strBytes ("svg") then .ok (some r) else .error .assertionError
    | _ => .error .assertionError

/-- application_octet_stream (lines 70-72): accepts anything, returns None. -/
def application_octet_streamF (_v : PyVal) : Except PyError (Option PyVal) := .ok none

/-- The default TYPE_MAP of src/cas/default_content_types.py, in registration
order: two charset decoders and eight data types, with the
`require_charset` sets recorded on the wrapped validators. -/
def TYPE_MAP : CASTypeRegistry :=
  [(.charsetK (strBytes ("utf-8")), ⟨wrapValidator charset_utf8F, []⟩),
   (.charsetK (strBytes ("ascii")), ⟨wrapValidator charset_asciiF, []⟩),
   (.dataK (strBytes ("text/plain")),
     ⟨wrapValidator text_plainF, [strBytes ("ascii"), strBytes ("utf-8")]⟩),
   (.dataK (strBytes ("image/gif")), ⟨wrapValidator image_gifF, []⟩),
   (.dataK (strBytes ("image/png")), ⟨wrapValidator image_pngF, []⟩),
   (.dataK (strBytes ("image/jpeg")), ⟨wrapValidator image_jpegF, []⟩),
   (.dataK (strBytes ("image/svg+xml")), ⟨wrapValidator image_svg_xmlF, []⟩),
   (.dataK (strBytes ("application/json")),
     ⟨wrapValidator application_jsonF, [strBytes ("utf-8")]⟩),
   (.dataK (strBytes ("application/octet-stream")),
     ⟨wrapValidator application_octet_streamF, []⟩),
   (.dataK (strBytes ("application/xml")),
     ⟨wrapValidator application_xmlF, [strBytes ("utf-8")]⟩)]

/-! ## verify_async / create_async (src/cas/models.py lines 141-233) -/

/-- A hashlib hash object: `update` concatenates onto the absorbed stream. -/
structure HashObj where
  absorbed : List Nat
deriving DecidableEq, Repr

/-- `hashlib.sha256(bs)`. -/
def newSha256 (bs : List Nat) : HashObj := ⟨bs⟩

/-- `h.update(bs)`. -/
def HashObj.update (h : HashObj) (bs : List Nat) : HashObj := ⟨h.absorbed ++ bs⟩

/-- `h.hexdigest()`. -/
def HashObj.hexdigest (h : HashObj) : List Nat := hexEncode (sha256 h.absorbed)

/-- The checksum computed by CAS_ID.verify_async (src/cas/models.py lines
217-222): `HASH_ALGO(data)`, then `update(str(len(data)))`, then
`update(self.content_type)`, then `update(self.charset)` only when the
charset is truthy; finally `hexdigest()`. -/
def CAS_ID.checksumHexOf (cid : CAS_ID) (data : List Nat) : List Nat :=
  let h := newSha256 data
  let h := h.update (decDigits data.length)
  let h := h.update cid.content_type
  let h := if csTruthy cid.charset then h.update (cid.charset.getD []) else h
  h.hexdigest

/-- CAS_ID.verify_async (src/cas/models.py lines 215-233): checksum mismatch
raises `CASValidationError('Checksum mismatch')`; otherwise the type map
validates the data.  The `type_map is None` default (the module TYPE_MAP) is
resolved by the caller here. -/
def CAS_ID.verify (cid : CAS_ID) (data : List Nat) (tm : CASTypeRegistry)
    (store : Datastore) (check_refs : Bool) : Except PyError PyVal :=
  if cid.checksumHexOf data ≠ cid.csum then .error .casValidationError
  else validate_async tm data cid.content_type cid.charset check_refs store

/-- CAS_ID.create_async (src/cas/models.py lines 142-178).  The salt
(`os.urandom(32)`, drawn before the transaction) is a parameter.  Inside the
transaction: if the key already exists the source executes
`raise exceptions.CASError(...)` — but `exceptions` is bound to
framework.exceptions (line 26), which defines no `CASError` (that class
lives in cas.exceptions, bound as `cas_exceptions`), so the attribute access
itself raises `AttributeError`; the intended exception was
`CASError("CASEntry('...') already exists.")`.  Otherwise: verify, compute
`salt_hash = hmac.new(salt, data, sha256)` and the git blob hash, and put
the entry and its CASDataInline child.  A raised error aborts the
transaction, leaving the store unchanged. -/
def CAS_ID.create_async (cid : CAS_ID) (data salt : List Nat)
    (tm : CASTypeRegistry) (store : Datastore) :
    Except PyError (CASEntryM × Datastore) :=
  match store.lookupEntry cid.toString with
  | some _ => .error (.attributeError ("CASError"))
  | none =>
    match cid.verify data tm store true with
    | .error e => .error e
    | .ok _ =>
      let salt_hash := hmacSha256 salt data
      let git_hash := sha1 (strBytes ("blob ") ++ decDigits data.length ++ 0 :: data)
      let entry : CASEntryM := ⟨0, salt, salt_hash, git_hash⟩
      .ok (entry, ⟨(cid.toString, entry) :: store.entries,
                   (cid.toString, data) :: store.inline_data⟩)

/-! ## Diff engine data model (src/codereviewv2/diff.py lines 48-143) -/

/-- codereviewv2.diff.Diffable: path, timestamp, mode and line ending plus
the content bytes behind `data_async`.  The constructor's
`assert lineending is not None` (binary contents cannot be diffed) is
reflected by the non-optional `lineending` field. -/
structure Diffable where
  path : List Nat
  timestamp : List Nat
  mode : Nat
  lineending : List Nat
  data : List Nat
deriving DecidableEq, Repr

/-- Diffable.lines (src/codereviewv2/diff.py lines 62-64): the module-local
LazyLineSplitter over the content and declared line ending. -/
def Diffable.lines (d : Diffable) : Except PyError (List (List Nat)) :=
  diffSplitLines d.data d.lineending

/-- codereviewv2.diff.DiffablePair: an ordered pair of optional Diffables
plus the action string. -/
structure DiffablePair where
  old : Option Diffable
  new : Option Diffable
  action : List Nat
deriving DecidableEq, Repr

/-- DiffablePair.__init__ (src/codereviewv2/diff.py lines 86-111): action
defaulting from which sides are present, the membership assert, and the
per-action path/presence asserts (`old.path` on a missing side is an
`AttributeError`). -/
def DiffablePair.mk? (old new : Option Diffable) (action0 : Option (List Nat)) :
    Except PyError DiffablePair :=
  let action :=
    match action0 with
    | some a => some a
    | none =>
      match old, new with
      | some _, some _ => some (strBytes ("modify"))
      | some _, none => some (strBytes ("delete"))
      | none, some _ => some (strBytes ("add"))
      | none, none => none
  match action with
  | none => .error .assertionError
  | some a =>
    if ¬ (a = strBytes ("modify") ∨ a = strBytes ("add") ∨ a = strBytes ("copy") ∨
          a = strBytes ("delete") ∨ a = strBytes ("rename")) then
      .error .assertionError
    else if a = strBytes ("modify") then
      match old, new with
      | some o, some n =>
        if o.path = n.path then .ok ⟨old, new, a⟩ else .error .assertionError
      | _, _ => .error (.attributeError ("path"))
    else if a = strBytes ("copy") ∨ a = strBytes ("rename") then
      match old, new with
      | some o, some n =>
        if o.path ≠ n.path then .ok ⟨old, new, a⟩ else .error .assertionError
      | _, _ => .error (.attributeError ("path"))
    else if a = strBytes ("add") then
      match old, new with
      | none, some _ => .ok ⟨old, new, a⟩
      | _, _ => .error .assertionError
    else
      match old, new with
      | some _, none => .ok ⟨old, new, a⟩
      | _, _ => .error .assertionError

/-- The first step shared by DiffablePair.generate_git_diff (line 183) and
DiffablePair._diff_body (lines 121-123): evaluating `self.old.lines` and
`self.new.lines` to feed `difflib.SequenceMatcher`.  Everything the diff
emits is derived from these two line sequences. -/
def DiffablePair.linesInput (p : DiffablePair) :
    Except PyError (List (List Nat) × List (List Nat)) :=
  match p.old, p.new with
  | some o, some n =>
    match o.lines, n.lines with
    | .ok a, .ok b => .ok (a, b)
    | .error e, _ => .error e
    | _, .error e => .error e
  | _, _ => .error (.attributeError ("lines"))

/-! ## Concrete instances used by the claim statements -/

/-- The well-formedness boundary of the round-trip claim, as a decidable
check: a 32-byte raw checksum of genuine bytes, a positive size, a non-empty
already-lower-cased content type, and an optional non-empty
already-lower-cased charset.  On top of the claim's own conditions it
records what the counterexample forces: no `:` in the content type (the
regular expression splits fields on `:`) and no newline in the charset
(`.` stops at a newline). -/
def goodRawB (raw : List Nat) (size : Nat) (ct : List Nat)
    (cs : Option (List Nat)) : Bool :=
  decide (raw.length = 32) && decide (∀ b ∈ raw, b < 256) &&
  decide (0 < size) && decide (ct ≠ []) && decide (pyLower ct = ct) &&
  decide (¬ 58 ∈ ct) &&
  (match cs with
   | none => true
   | some c => decide (c ≠ [] ∧ pyLower c = c ∧ ¬ 10 ∈ c))

/-- The CAS_ID that `CAS_ID.mk?` builds from well-formed raw fields. -/
def mkGood (raw : List Nat) (size : Nat) (ct : List Nat)
    (cs : Option (List Nat)) : CAS_ID :=
  ⟨hexEncode raw, (size : Int), pyLower ct,
   match cs with
   | some c => if c = [] then none else some (pyLower c)
   | none => none⟩

/-- The CAS_ID of the spec's end-to-end example: data `b"abc"`,
content type `"text/plain"`, charset `"utf-8"`; its checksum field is the
hex digest over `b"abc" + b"3" + b"text/plain" + b"utf-8"`. -/
def cidABC : CAS_ID :=
  ⟨hexEncode (sha256 (strBytes ("abc") ++ strBytes ("3") ++
      strBytes ("text/plain") ++ strBytes ("utf-8"))),
   3, strBytes ("text/plain"), some (strBytes ("utf-8"))⟩

/-- A CAS_ID whose content type contains a colon; every field satisfies the
validity conditions stated by the round-trip claim (32-byte checksum,
positive size, non-empty content type, optional charset). -/
def cidColon : CAS_ID :=
  ⟨hexEncode (List.replicate 32 0), 1, strBytes ("a:b"), none⟩

/-- A concrete stored entry for the ownership-proof counterexample. -/
def entryX : CASEntryM := ⟨0, List.replicate 32 1, List.replicate 32 2, []⟩

/-- A concrete entry already present in the duplicate-create witness store. -/
def dummyEntry : CASEntryM := ⟨0, [3], [4], [5]⟩

/-- A concrete CAS_ID for the duplicate-create witness. -/
def cidW : CAS_ID :=
  ⟨hexEncode (List.replicate 32 0), 1, strBytes ("text/plain"),
   some (strBytes ("utf-8"))⟩

/-- A store that already holds an entry under `cidW`'s canonical key. -/
def storeW : Datastore := ⟨[(cidW.toString, dummyEntry)], []⟩

/-- An inner validator that always raises (a `TypeError`), used to witness
the information-hiding wrapper. -/
def failingValidator : PyVal → Except PyError (Option PyVal) :=
  fun _ => .error .typeError

/-! ## Lemmas about the framework line splitter -/

/-- A successful `strFindAux` result lies at or after `start`, fits inside
the data, and marks a real occurrence. -/
theorem strFindAux_some_facts {data sub : List Nat} :
    ∀ {fuel start e : Nat}, strFindAux data sub start fuel = some e →
      start ≤ e ∧ e + sub.length ≤ data.length ∧ sub.isPrefixOf (data.drop e) = true := by
  intro fuel
  induction fuel with
  | zero => intro start e h; simp [strFindAux] at h
  | succ n ih =>
    intro start e h
    unfold strFindAux at h
    by_cases hle : start + sub.length ≤ data.length
    · by_cases hp : sub.isPrefixOf (data.drop start) = true
      · simp only [hle, if_true, hp] at h
        cases h
        exact ⟨Nat.le_refl _, hle, hp⟩
      · simp only [hle, if_true, hp, if_false] at h
        obtain ⟨h1, h2, h3⟩ := ih h
        exact ⟨by omega, h2, h3⟩
    · simp [hle] at h

/-- Same facts for `strFind`. -/
theorem strFind_some_facts {data sub : List Nat} {start e : Nat}
    (h : strFind data sub start = some e) :
    start ≤ e ∧ e + sub.length ≤ data.length ∧ sub.isPrefixOf (data.drop e) = true :=
  strFindAux_some_facts h

/-- Concatenating the slices produced by the offsets loop recovers the data
from `start` on, for a non-empty line ending and sufficient fuel. -/
theorem utilsOffsets_flatten (data le : List Nat) (hle : le ≠ []) :
    ∀ fuel start, data.length - start < fuel →
      ((utilsOffsets data le fuel start).map (pySlice data)).flatten = data.drop start := by
  intro fuel
  induction fuel with
  | zero => intro start h; omega
  | succ n ih =>
    intro start h
    have hlen : 1 ≤ le.length := by
      cases le with
      | nil => simp at hle
      | cons a l => simp
    unfold utilsOffsets
    by_cases hs : start < data.length
    · simp only [hs, if_true]
      cases hf : strFind data le start with
      | none =>
        simp only [List.map_cons, List.map_nil, List.flatten_cons, List.flatten_nil,
          List.append_nil, pySlice]
        exact List.take_of_length_le (by simp)
      | some e =>
        obtain ⟨h1, h2, h3⟩ := strFind_some_facts hf
        simp only [List.map_cons, List.flatten_cons]
        rw [ih (e + le.length) (by omega)]
        have hdd : data.drop (e + le.length) =
            (data.drop start).drop (e + le.length - start) := by
          rw [List.drop_drop]
          congr 1
          omega
        rw [pySlice, hdd, List.take_append_drop]
    · simp only [hs, if_false, List.map_nil, List.flatten_nil]
      rw [List.drop_of_length_le (by omega)]

/-- A slice that is closed by an occurrence of `le` ends with `le`. -/
theorem sliceEndsWith {data le : List Nat} {start e : Nat}
    (hp : le.isPrefixOf (data.drop e) = true) (hse : start ≤ e) :
    le <:+ pySlice data (start, e + le.length) := by
  rw [List.isPrefixOf_iff_prefix] at hp
  obtain ⟨t, ht⟩ := hp
  refine ⟨(data.drop start).take (e - start), ?_⟩
  have hsplit : e + le.length - start = (e - start) + le.length := by omega
  rw [pySlice, hsplit, List.take_add]
  congr 1
  rw [List.drop_drop]
  have h2 : start + (e - start) = e := by omega
  rw [h2, ← ht, List.take_left]

/-- Every line produced by the offsets loop, except possibly the final one,
ends with the line ending. -/
theorem utilsOffsets_endings (data le : List Nat) :
    ∀ fuel start, ∀ l ∈ ((utilsOffsets data le fuel start).map (pySlice data)).dropLast,
      le <:+ l := by
  intro fuel
  induction fuel with
  | zero => intro start l h; simp [utilsOffsets] at h
  | succ n ih =>
    intro start l h
    unfold utilsOffsets at h
    by_cases hs : start < data.length
    · simp only [hs, if_true] at h
      cases hf : strFind data le start with
      | none => rw [hf] at h; simp at h
      | some e =>
        rw [hf] at h
        obtain ⟨h1, _h2, h3⟩ := strFind_some_facts hf
        simp only [List.map_cons] at h
        cases hrest : (utilsOffsets data le n (e + le.length)).map (pySlice data) with
        | nil => rw [hrest] at h; simp at h
        | cons r rs =>
          rw [hrest, List.dropLast_cons₂] at h
          rcases List.mem_cons.mp h with rfl | hmem
          · exact sliceEndsWith h3 h1
          · exact ih (e + le.length) l (by rw [hrest]; exact hmem)
    · simp [hs] at h

/-- C10 (implicit): the framework line splitter partitions its input — the
produced lines concatenate, in order, to exactly the original byte string,
and every line except possibly the last ends with the (non-empty) line
ending; so a line's length as seen by consumers (e.g. the text/plain
300-byte check) includes the terminating line-ending bytes. -/
theorem lazy_line_splitter_partitions :
    ∀ (data le : List Nat), le ≠ [] →
      (LazyLineSplitter.ofData data le).toLines.flatten = data ∧
      ∀ l ∈ (LazyLineSplitter.ofData data le).toLines.dropLast, le <:+ l := by
  intro data le hle
  constructor
  · have h := utilsOffsets_flatten data le hle (data.length + 1) 0 (by omega)
    simpa [LazyLineSplitter.ofData, LazyLineSplitter.toLines] using h
  · intro l h
    refine utilsOffsets_endings data le (data.length + 1) 0 l ?_
    simpa [LazyLineSplitter.ofData, LazyLineSplitter.toLines] using h

/-- Witness for C10 at data `"ab\ncd\ne"`, line ending `"\n"`. -/
theorem lazy_line_splitter_partitions_witness :
    (([10] : List Nat) ≠ []) ∧
      ((LazyLineSplitter.ofData (strBytes ("ab\ncd\ne")) [10]).toLines.flatten =
          strBytes ("ab\ncd\ne") ∧
        ∀ l ∈ (LazyLineSplitter.ofData (strBytes ("ab\ncd\ne")) [10]).toLines.dropLast,
          [10] <:+ l) :=
  ⟨by decide, lazy_line_splitter_partitions (strBytes ("ab\ncd\ne")) [10] (by decide)⟩

/-! ## Lemmas about constant_time_equals, and the ownership proof (C4) -/

/-- A zero bitwise-or has zero operands. -/
theorem nat_or_eq_zero {a b : Nat} (h : a ||| b = 0) : a = 0 ∧ b = 0 := by
  constructor
  · by_contra ha
    obtain ⟨i, hi⟩ := Nat.ne_zero_implies_bit_true ha
    have h2 := congrArg (fun n => n.testBit i) h
    simp [hi] at h2
  · by_contra hb
    obtain ⟨i, hi⟩ := Nat.ne_zero_implies_bit_true hb
    have h2 := congrArg (fun n => n.testBit i) h
    simp [hi] at h2

/-- The or-accumulated xor fold is zero exactly when the accumulator is zero
and every zipped pair is equal. -/
theorem cteFold_eq_zero :
    ∀ (l : List (Nat × Nat)) (acc : Nat),
      (l.foldl (fun a p => a ||| (p.1 ^^^ p.2)) acc = 0) ↔
        (acc = 0 ∧ ∀ p ∈ l, p.1 = p.2) := by
  intro l
  induction l with
  | nil => intro acc; simp
  | cons x xs ih =>
    intro acc
    simp only [List.foldl_cons, List.mem_cons]
    rw [ih]
    constructor
    · rintro ⟨h1, h2⟩
      obtain ⟨ha, hx⟩ := nat_or_eq_zero h1
      refine ⟨ha, ?_⟩
      intro p hp
      rcases hp with rfl | hp
      · exact Nat.xor_eq_zero.mp hx
      · exact h2 p hp
    · rintro ⟨ha, h2⟩
      subst ha
      have hx : x.1 ^^^ x.2 = 0 := Nat.xor_eq_zero.mpr (h2 x (Or.inl rfl))
      simp only [hx]
      exact ⟨rfl, fun p hp => h2 p (Or.inr hp)⟩

/-- Equal-length lists are equal exactly when every zipped pair is equal. -/
theorem zip_pointwise_eq :
    ∀ (a b : List Nat), a.length = b.length →
      ((∀ p ∈ a.zip b, p.1 = p.2) ↔ a = b) := by
  intro a
  induction a with
  | nil =>
    intro b h
    cases b with
    | nil => simp
    | cons y ys => simp at h
  | cons x xs ih =>
    intro b h
    cases b with
    | nil => simp at h
    | cons y ys =>
      simp only [List.zip_cons_cons, List.mem_cons, List.cons.injEq]
      rw [← ih ys (by simpa using h)]
      constructor
      · intro hall
        exact ⟨hall (x, y) (Or.inl rfl), fun p hp => hall p (Or.inr hp)⟩
      · rintro ⟨rfl, hall⟩
        intro p hp
        rcases hp with rfl | hp
        · rfl
        · exact hall p hp

/-- framework.utils.constant_time_equals decides exactly string equality. -/
theorem constant_time_equals_iff (a b : List Nat) :
    constant_time_equals a b = true ↔ a = b := by
  unfold constant_time_equals
  by_cases h : a.length = b.length
  · simp only [h, ne_eq, not_true_eq_false, if_false, decide_eq_true_eq]
    rw [cteFold_eq_zero]
    simp only [true_and]
    exact zip_pointwise_eq a b h
  · have hne : a ≠ b := fun hab => h (by rw [hab])
    simp only [ne_eq, h, not_false_eq_true, if_true]
    simp [hne]

/-- C4 (amended): a submitted ownership proof is accepted exactly when it
equals the hex digest of HMAC(session secret, entry.salt_hash); any proof
differing from that string is rejected, and — the check being a pure
function of (secret, entry, proof) — a correct proof is accepted every time
it is checked. -/
theorem prove_ownership_accepts_iff :
    ∀ (secret : List Nat) (e : CASEntryM) (proof : List Nat),
      e.prove_ownership secret proof = true ↔
        proof = hexEncode (hmacSha256 secret e.salt_hash) := by
  intro s e proof
  unfold CASEntryM.prove_ownership
  exact constant_time_equals_iff _ _

/-- C4 counterexample: the claim says a proof computed with a *different*
session secret is rejected.  HMAC zero-pads keys shorter than the 64-byte
block, so the distinct secret `b"k\x00"` produces exactly the proof expected
for secret `b"k"`, and prove_ownership accepts it. -/
theorem prove_ownership_wrong_secret_accepted :
    (([107, 0] : List Nat) ≠ [107]) ∧
      entryX.prove_ownership [107]
        (hexEncode (hmacSha256 [107, 0] entryX.salt_hash)) = true := by
  constructor
  · decide
  · have hpad : hmacPadKey [107, 0] = hmacPadKey [107] := by decide
    have hmac_eq : hmacSha256 [107, 0] entryX.salt_hash =
        hmacSha256 [107] entryX.salt_hash := by
      unfold hmacSha256
      rw [hpad]
    rw [hmac_eq]
    unfold CASEntryM.prove_ownership
    exact (constant_time_equals_iff _ _).mpr rfl

/-! ## C5: the information-hiding wrapper, and C7: the text/plain validator -/

/-- C5: whenever an inner validator raises any exception, the registry
wrapper catches it and raises the generic CASValidationError; consequently
no exception kind other than CASValidationError ever escapes from a
validator through the wrapper. -/
theorem validator_errors_are_neutered :
    (∀ (f : PyVal → Except PyError (Option PyVal)) (data : PyVal) (e : PyError),
        f data = .error e → wrapValidator f data = .error .casValidationError) ∧
    (∀ (f : PyVal → Except PyError (Option PyVal)) (data : PyVal) (e : PyError),
        wrapValidator f data = .error e → e = .casValidationError) := by
  constructor
  · intro f data e h
    unfold wrapValidator
    rw [h]
  · intro f data e h
    unfold wrapValidator at h
    cases hf : f data with
    | error e2 =>
      rw [hf] at h
      cases h
      rfl
    | ok r =>
      rw [hf] at h
      cases r with
      | none => simp at h
      | some v => simp at h

/-- Witness for C5: a validator raising a TypeError surfaces as the generic
CASValidationError. -/
theorem validator_errors_are_neutered_witness :
    failingValidator (.bytes []) = .error .typeError ∧
      wrapValidator failingValidator (.bytes []) = .error .casValidationError :=
  ⟨rfl, validator_errors_are_neutered.1 failingValidator (.bytes []) .typeError rfl⟩

set_option maxRecDepth 100000 in
/-- C7: the registered text/plain validator accepts data exactly when every
line of the framework splitter (line endings included) is at most 300 bytes
long; in particular one line of 400 `'a'` bytes fails validation and the
3-byte upload `b"abc"` passes. -/
theorem text_plain_300_byte_lines :
    (∀ bs : List Nat,
        wrapValidator text_plainF (.bytes bs) = .ok (.bytes bs) ↔
          ∀ l ∈ (LazyLineSplitter.ofData bs [10]).toLines, l.length ≤ 300) ∧
    wrapValidator text_plainF (.bytes (List.replicate 400 97)) =
        .error .casValidationError ∧
    wrapValidator text_plainF (.bytes (strBytes ("abc"))) =
        .ok (.bytes (strBytes ("abc"))) := by
  refine ⟨?_, by rfl, by rfl⟩
  intro bs
  constructor
  · intro h
    intro l hl
    by_cases hC : (LazyLineSplitter.ofData bs [10]).toLines.all
        (fun l => decide (l.length ≤ 300)) = true
    · have := List.all_eq_true.mp hC l hl
      simpa using this
    · rw [Bool.not_eq_true] at hC
      unfold wrapValidator text_plainF at h
      simp only [pyValSeq] at h
      simp [hC] at h
  · intro hall
    have hC : (LazyLineSplitter.ofData bs [10]).toLines.all
        (fun l => decide (l.length ≤ 300)) = true :=
      List.all_eq_true.mpr (fun l hl => by simpa using hall l hl)
    unfold wrapValidator text_plainF
    simp [pyValSeq, hC]

/-! ## C6: unknown type / charset, C1: duplicate create, C9: diff identity -/

/-- C6 (code evaluation): an unregistered content type raises
CASUnknownDataType, as the claim says; but for a registered content type
with a non-null unregistered charset the source executes
`raise exceptions.CASUnknownCharset(...)` against a module that defines no
such class, so an uncontrolled AttributeError is raised instead of the
claimed CASUnknownCharset. -/
theorem unknown_type_and_charset_errors :
    (∀ (tm : CASTypeRegistry) (data ct : List Nat) (cs : Option (List Nat))
        (cr : Bool) (store : Datastore),
        (regFind tm (.dataK ct)).isNone = true →
        validate_async tm data ct cs cr store = .error .casUnknownDataType) ∧
    (∀ (tm : CASTypeRegistry) (data ct c : List Nat) (cr : Bool) (store : Datastore),
        (regFind tm (.dataK ct)).isSome = true →
        c ≠ [] →
        (regFind tm (.charsetK c)).isNone = true →
        validate_async tm data ct (some c) cr store =
          .error (.attributeError ("CASUnknownCharset"))) := by
  constructor
  · intro tm data ct cs cr store h
    unfold validate_async
    rw [Option.isNone_iff_eq_none] at h
    rw [h]
  · intro tm data ct c cr store hsome hc hnone
    unfold validate_async
    obtain ⟨dv, hdv⟩ := Option.isSome_iff_exists.mp hsome
    rw [hdv]
    rw [Option.isNone_iff_eq_none] at hnone
    have ht : csTruthy (some c) = true := by
      simp [csTruthy, hc]
    simp [ht, hnone]

/-- Witness for C6 over the real default TYPE_MAP: `application/fake` is
unregistered; `text/plain` is registered while the charset `latin-1` is not. -/
theorem unknown_type_and_charset_errors_witness :
    ((regFind TYPE_MAP (.dataK (strBytes ("application/fake")))).isNone = true ∧
      validate_async TYPE_MAP (strBytes ("x")) (strBytes ("application/fake"))
          none true ⟨[], []⟩ = .error .casUnknownDataType) ∧
    ((regFind TYPE_MAP (.dataK (strBytes ("text/plain")))).isSome = true ∧
      strBytes ("latin-1") ≠ [] ∧
      (regFind TYPE_MAP (.charsetK (strBytes ("latin-1")))).isNone = true ∧
      validate_async TYPE_MAP (strBytes ("x")) (strBytes ("text/plain"))
          (some (strBytes ("latin-1"))) true ⟨[], []⟩ =
        .error (.attributeError ("CASUnknownCharset"))) :=
  ⟨⟨by rfl,
    unknown_type_and_charset_errors.1 TYPE_MAP (strBytes ("x"))
      (strBytes ("application/fake")) none true ⟨[], []⟩ (by rfl)⟩,
   ⟨by rfl, by decide, by rfl,
    unknown_type_and_charset_errors.2 TYPE_MAP (strBytes ("x"))
      (strBytes ("text/plain")) (strBytes ("latin-1")) true ⟨[], []⟩
      (by rfl) (by decide) (by rfl)⟩⟩

/-- C1 (code evaluation): creating a CAS_ID whose canonical key already
exists aborts the transaction before any write — but by executing
`raise exceptions.CASError(...)` against framework.exceptions, which defines
no CASError, so the raised exception is an uncontrolled AttributeError, not
the claimed `CASError("... already exists")`; no updated store is produced,
so the first entry is untouched. -/
theorem duplicate_create_raises_attribute_error :
    (∀ (cid : CAS_ID) (data salt : List Nat) (tm : CASTypeRegistry) (store : Datastore),
        (store.lookupEntry cid.toString).isSome = true →
        cid.create_async data salt tm store = .error (.attributeError ("CASError"))) ∧
    (∀ msg : List Nat, (PyError.attributeError ("CASError")) ≠ .casError msg) := by
  constructor
  · intro cid data salt tm store h
    unfold CAS_ID.create_async
    obtain ⟨e, he⟩ := Option.isSome_iff_exists.mp h
    rw [he]
  · intro msg h
    exact PyError.noConfusion h

/-- Witness for C1: a second create of `cidW` against a store that already
holds its entry. -/
theorem duplicate_create_raises_attribute_error_witness :
    (storeW.lookupEntry cidW.toString).isSome = true ∧
      cidW.create_async (strBytes ("abc")) (List.replicate 32 9) TYPE_MAP storeW =
        .error (.attributeError ("CASError")) :=
  ⟨by rfl,
   duplicate_create_raises_attribute_error.1 cidW (strBytes ("abc"))
     (List.replicate 32 9) TYPE_MAP storeW (by rfl)⟩

/-- C9 (code evaluation): a modify pair whose two sides are the same content
containing at least one line ending never emits a zero-hunk diff — the
module-local LazyLineSplitter of codereviewv2/diff.py calls
`self._offsets.append(start, end)` (two arguments), so evaluating the line
sequences that feed the sequence matcher raises a TypeError before any diff
output. -/
theorem identical_diff_crashes_in_line_splitting :
    ∀ (data le path ts : List Nat) (mode : Nat),
      le ≠ [] →
      (strFind data le 0).isSome = true →
      DiffablePair.mk? (some ⟨path, ts, mode, le, data⟩)
          (some ⟨path, ts, mode, le, data⟩) none =
        .ok ⟨some ⟨path, ts, mode, le, data⟩, some ⟨path, ts, mode, le, data⟩,
             strBytes ("modify")⟩ ∧
      DiffablePair.linesInput
          ⟨some ⟨path, ts, mode, le, data⟩, some ⟨path, ts, mode, le, data⟩,
           strBytes ("modify")⟩ = .error .typeError := by
  intro data le path ts mode hle hfind
  constructor
  · unfold DiffablePair.mk?
    simp
  · obtain ⟨e, he⟩ := Option.isSome_iff_exists.mp hfind
    obtain ⟨h1, h2, h3⟩ := strFind_some_facts he
    have hlen : 1 ≤ le.length := by
      cases le with
      | nil => simp at hle
      | cons a l => simp
    have hdl : 0 < data.length := by omega
    simp only [DiffablePair.linesInput, Diffable.lines, diffSplitLines, diffOffsets]
    simp [hdl, he, Except.map]

/-- Witness for C9 at content `b"a\nb"` with line ending `b"\n"`. -/
theorem identical_diff_crashes_in_line_splitting_witness :
    (([10] : List Nat) ≠ [] ∧ (strFind (strBytes ("a\nb")) [10] 0).isSome = true) ∧
      (DiffablePair.mk?
          (some ⟨strBytes ("f"), strBytes ("t"), 33188, [10], strBytes ("a\nb")⟩)
          (some ⟨strBytes ("f"), strBytes ("t"), 33188, [10], strBytes ("a\nb")⟩) none =
        .ok ⟨some ⟨strBytes ("f"), strBytes ("t"), 33188, [10], strBytes ("a\nb")⟩,
             some ⟨strBytes ("f"), strBytes ("t"), 33188, [10], strBytes ("a\nb")⟩,
             strBytes ("modify")⟩ ∧
       DiffablePair.linesInput
          ⟨some ⟨strBytes ("f"), strBytes ("t"), 33188, [10], strBytes ("a\nb")⟩,
           some ⟨strBytes ("f"), strBytes ("t"), 33188, [10], strBytes ("a\nb")⟩,
           strBytes ("modify")⟩ = .error .typeError) :=
  ⟨⟨by decide, by rfl⟩,
   identical_diff_crashes_in_line_splitting (strBytes ("a\nb")) [10]
     (strBytes ("f")) (strBytes ("t")) 33188 (by decide) (by rfl)⟩

/-! ## C2: the checksum formula -/

/-- Incremental hashing in verify_async equals one SHA-256 over the
concatenation, charset appended only when present. -/
theorem checksumHexOf_eq (cid : CAS_ID) (data : List Nat) :
    cid.checksumHexOf data =
      hexEncode (sha256 (data ++ decDigits data.length ++ cid.content_type ++
        (match cid.charset with
         | some cs => cs
         | none => []))) := by
  unfold CAS_ID.checksumHexOf newSha256 HashObj.update HashObj.hexdigest
  cases hcs : cid.charset with
  | none => simp [csTruthy, List.append_assoc]
  | some cs =>
    by_cases hc : cs.isEmpty
    · have hnil : cs = [] := by simpa using hc
      subst hnil
      simp [csTruthy, List.append_assoc]
    · simp [csTruthy, hc, List.append_assoc]

set_option maxRecDepth 100000 in
/-- C2: the checksum verify_async computes is the 256-bit hash fed, in
order, the data, the decimal string of its length, the content type, and —
only when non-null — the charset; for data `b"abc"`, `"text/plain"`,
`"utf-8"` the checksum equals SHA256(b"abc" + b"3" + b"text/plain" +
b"utf-8") and the canonical string is `"<hex checksum>:3:text/plain:utf-8"`. -/
theorem verify_checksum_formula :
    (∀ (cid : CAS_ID) (data : List Nat),
        cid.checksumHexOf data =
          hexEncode (sha256 (data ++ decDigits data.length ++ cid.content_type ++
            (match cid.charset with
             | some cs => cs
             | none => [])))) ∧
    cidABC.checksumHexOf (strBytes ("abc")) = cidABC.csum ∧
    cidABC.csum = hexEncode (sha256 (strBytes ("abc") ++ strBytes ("3") ++
        strBytes ("text/plain") ++ strBytes ("utf-8"))) ∧
    CAS_ID.toString cidABC = cidABC.csum ++ strBytes (":3:text/plain:utf-8") := by
  refine ⟨checksumHexOf_eq, ?_, rfl, ?_⟩
  · rw [checksumHexOf_eq]
    have hd : decDigits (strBytes ("abc")).length = strBytes ("3") := by decide
    rw [hd]
    rfl
  · show cidABC.csum ++ _ = cidABC.csum ++ strBytes (":3:text/plain:utf-8")
    exact congrArg (fun t => cidABC.csum ++ t) (by decide)

/-! ## Hex, decimal and takeWhile lemmas for the round-trip claims -/

/-- Unpack the decidable well-formedness check. -/
theorem goodRawB_spec {raw : List Nat} {size : Nat} {ct : List Nat}
    {cs : Option (List Nat)} (h : goodRawB raw size ct cs = true) :
    raw.length = 32 ∧ (∀ b ∈ raw, b < 256) ∧ 0 < size ∧ ct ≠ [] ∧
      pyLower ct = ct ∧ ¬ (58 ∈ ct) ∧
      (∀ c, cs = some c → (c ≠ [] ∧ pyLower c = c ∧ ¬ (10 ∈ c))) := by
  unfold goodRawB at h
  simp only [Bool.and_eq_true, decide_eq_true_eq] at h
  obtain ⟨⟨⟨⟨⟨⟨h1, h2⟩, h3⟩, h4⟩, h5⟩, h6⟩, h7⟩ := h
  refine ⟨h1, h2, h3, h4, h5, h6, ?_⟩
  intro c hc
  subst hc
  simpa using h7

/-- Hex encoding doubles the length. -/
theorem length_hexEncode (bs : List Nat) : (hexEncode bs).length = 2 * bs.length := by
  induction bs with
  | nil => rfl
  | cons b t ih =>
    simp only [hexEncode, List.map_cons, List.flatten_cons, List.length_append,
      List.length_cons, List.length_nil, List.length_map] at ih ⊢
    omega

/-- Hex digit characters are in the regex class. -/
theorem isHexChar_hexDigitChar {n : Nat} (h : n < 16) :
    isHexChar (hexDigitChar n) = true := by
  unfold isHexChar hexVal hexDigitChar
  by_cases h10 : n < 10
  · rw [if_pos h10, if_pos (by omega : 48 ≤ 48 + n ∧ 48 + n ≤ 57)]
    rfl
  · rw [if_neg h10, if_neg (by omega : ¬ (48 ≤ 87 + n ∧ 87 + n ≤ 57)),
      if_pos (by omega : 97 ≤ 87 + n ∧ 87 + n ≤ 102)]
    rfl

/-- Hex digit characters decode back to their nibble. -/
theorem hexVal_hexDigitChar {n : Nat} (h : n < 16) :
    hexVal (hexDigitChar n) = some n := by
  unfold hexVal hexDigitChar
  by_cases h10 : n < 10
  · rw [if_pos h10, if_pos (by omega : 48 ≤ 48 + n ∧ 48 + n ≤ 57)]
    congr 1
    omega
  · rw [if_neg h10, if_neg (by omega : ¬ (48 ≤ 87 + n ∧ 87 + n ≤ 57)),
      if_pos (by omega : 97 ≤ 87 + n ∧ 87 + n ≤ 102)]
    congr 1
    omega

/-- Hex-encoded genuine bytes use only regex-class characters. -/
theorem hexEncode_all_hex {bs : List Nat} (h : ∀ b ∈ bs, b < 256) :
    (hexEncode bs).all isHexChar = true := by
  induction bs with
  | nil => rfl
  | cons b t ih =>
    have hb : b < 256 := h b (by simp)
    simp only [hexEncode, List.map_cons, List.flatten_cons, List.cons_append,
      List.nil_append, List.all_cons, Bool.and_eq_true]
    refine ⟨isHexChar_hexDigitChar (by omega), isHexChar_hexDigitChar (by omega), ?_⟩
    exact ih (fun x hx => h x (by simp [hx]))

/-- Decoding inverts encoding on genuine bytes. -/
theorem hexDecode_hexEncode {bs : List Nat} (h : ∀ b ∈ bs, b < 256) :
    hexDecode (hexEncode bs) = some bs := by
  induction bs with
  | nil => rfl
  | cons b t ih =>
    have hb : b < 256 := h b (by simp)
    show hexDecode (hexDigitChar (b / 16) :: hexDigitChar (b % 16) :: hexEncode t) =
      some (b :: t)
    unfold hexDecode
    rw [hexVal_hexDigitChar (by omega : b / 16 < 16),
      hexVal_hexDigitChar (by omega : b % 16 < 16),
      ih (fun x hx => h x (by simp [hx]))]
    have hbt : b / 16 * 16 + b % 16 = b := by omega
    show some ((b / 16 * 16 + b % 16) :: t) = some (b :: t)
    rw [hbt]

/-- Appending one digit multiplies the parsed value by ten. -/
theorem natFromDigits_append_digit (l : List Nat) (d : Nat) :
    natFromDigits (l ++ [d]) = natFromDigits l * 10 + (d - 48) := by
  simp [natFromDigits, List.foldl_append]

/-- `int(str(n)) == n` for the fuelled digit writer. -/
theorem natFromDigits_decDigitsAux : ∀ (fuel n : Nat), n < fuel →
    natFromDigits (decDigitsAux fuel n) = n := by
  intro fuel
  induction fuel with
  | zero => intro n h; omega
  | succ f ih =>
    intro n h
    unfold decDigitsAux
    by_cases h10 : n < 10
    · rw [if_pos h10]
      simp [natFromDigits]
    · rw [if_neg h10, natFromDigits_append_digit, ih (n / 10) (by omega)]
      omega

/-- `str(n)` writes only decimal digits. -/
theorem decDigitsAux_all_digits : ∀ (fuel n : Nat),
    ∀ c ∈ decDigitsAux fuel n, isDigitChar c = true := by
  intro fuel
  induction fuel with
  | zero => intro n c hc; simp [decDigitsAux] at hc
  | succ f ih =>
    intro n c hc
    unfold decDigitsAux at hc
    by_cases h10 : n < 10
    · rw [if_pos h10] at hc
      simp only [List.mem_singleton] at hc
      subst hc
      simp only [isDigitChar, Bool.and_eq_true, decide_eq_true_eq]
      omega
    · rw [if_neg h10, List.mem_append] at hc
      rcases hc with hc | hc
      · exact ih (n / 10) c hc
      · simp only [List.mem_singleton] at hc
        subst hc
        simp only [isDigitChar, Bool.and_eq_true, decide_eq_true_eq]
        omega

/-- `str(n)` is never empty. -/
theorem decDigitsAux_ne_nil (fuel n : Nat) (h : 0 < fuel) :
    decDigitsAux fuel n ≠ [] := by
  cases fuel with
  | zero => omega
  | succ f =>
    unfold decDigitsAux
    by_cases h10 : n < 10
    · rw [if_pos h10]
      simp
    · rw [if_neg h10]
      simp

/-- `str(i)` of a natural-valued int. -/
theorem pyStr_ofNat (n : Nat) : pyStr (n : Int) = decDigits n := by
  unfold pyStr
  rw [if_neg (by omega : ¬ ((n : Int) < 0))]
  simp

/-- The greedy run: takeWhile/dropWhile across a satisfying block followed by
a failing element. -/
theorem takeWhile_run {p : Nat → Bool} (a : List Nat) (y : Nat) (rest : List Nat)
    (h1 : ∀ c ∈ a, p c = true) (h2 : p y = false) :
    (a ++ y :: rest).takeWhile p = a ∧ (a ++ y :: rest).dropWhile p = y :: rest := by
  induction a with
  | nil => simp [List.takeWhile, List.dropWhile, h2]
  | cons x xs ih =>
    have hx : p x = true := h1 x (by simp)
    have hr := ih (fun c hc => h1 c (by simp [hc]))
    simp [List.takeWhile_cons, List.dropWhile_cons, hx, hr.1, hr.2]

/-- The greedy run when every element satisfies the predicate. -/
theorem takeWhile_all {p : Nat → Bool} (a : List Nat) (h1 : ∀ c ∈ a, p c = true) :
    a.takeWhile p = a ∧ a.dropWhile p = [] := by
  refine ⟨List.takeWhile_eq_self_iff.mpr h1, ?_⟩
  induction a with
  | nil => rfl
  | cons x xs ih =>
    simp [List.dropWhile_cons, h1 x (by simp)]
    exact fun c hc => h1 c (by simp [hc])

/-- The CAS_ID regular expression, run over a canonical string assembled
from well-formed parts, recovers exactly those parts. -/
theorem casIdScan_append {A D ct tail : List Nat} {g4 : Option (List Nat)}
    (hA64 : A.length = 64) (hAhex : A.all isHexChar = true)
    (hD : ∀ c ∈ D, isDigitChar c = true) (hDne : D ≠ [])
    (hct : ¬ (58 ∈ ct))
    (htail : (tail = [] ∧ g4 = none) ∨
             (∃ c, tail = 58 :: c ∧ ¬ (10 ∈ c) ∧ g4 = some c)) :
    casIdScan (A ++ 58 :: (D ++ 58 :: (ct ++ tail))) = some (A, D, ct, g4) := by
  have hctp : ∀ x ∈ ct, (fun c => !(c == 58)) x = true := by
    intro x hx
    simp only [Bool.not_eq_true', beq_eq_false_iff_ne, ne_eq]
    exact fun h58 => hct (h58 ▸ hx)
  simp only [casIdScan]
  rw [List.take_left' hA64, List.drop_left' hA64]
  rw [if_pos ⟨hA64, hAhex⟩]
  dsimp only
  have hrun := takeWhile_run D 58 (ct ++ tail) hD (by decide)
  rw [hrun.1, hrun.2, if_neg hDne]
  rcases htail with ⟨rfl, rfl⟩ | ⟨c, rfl, hc10, rfl⟩
  · rw [List.append_nil]
    have h3 := takeWhile_all ct hctp
    split
    · rename_i r2 heq
      injection heq with heq1 heq2
      subst heq2
      rw [h3.2, h3.1]
    · rw [h3.2, h3.1]
  · have h3 := takeWhile_run ct 58 c hctp (by decide)
    have h4 := takeWhile_all (p := fun c => !(c == 10)) c (by
      intro x hx
      have hx10 : x ≠ 10 := fun h10 => hc10 (h10 ▸ hx)
      simp [hx10])
    split
    · rename_i r2 heq
      injection heq with heq1 heq2
      subst heq2
      rw [h3.2, h3.1]
      show some (A, D, ct, some (List.takeWhile (fun x => !(x == 10)) c)) =
        some (A, D, ct, some c)
      rw [h4.1]
    · rw [h3.2, h3.1]
      show some (A, D, ct, some (List.takeWhile (fun x => !(x == 10)) c)) =
        some (A, D, ct, some c)
      rw [h4.1]

/-- Under the well-formedness check, the constructor's normalisation is the
identity. -/
theorem mkGood_eq_of_good {raw : List Nat} {size : Nat} {ct : List Nat}
    {cs : Option (List Nat)} (h : goodRawB raw size ct cs = true) :
    mkGood raw size ct cs = ⟨hexEncode raw, (size : Int), ct, cs⟩ := by
  obtain ⟨_h32, _h256, _hpos, _hctne, hlow, _hcol, hcs⟩ := goodRawB_spec h
  unfold mkGood
  rw [hlow]
  cases cs with
  | none => rfl
  | some c =>
    obtain ⟨hcne, hclow, _⟩ := hcs c rfl
    dsimp only
    rw [if_neg hcne, hclow]

/-- The canonical string of a well-formed CAS_ID, in the spine form the
parser lemmas consume. -/
theorem toString_good {raw : List Nat} {size : Nat} {ct : List Nat}
    {cs : Option (List Nat)} (h : goodRawB raw size ct cs = true) :
    (⟨hexEncode raw, (size : Int), ct, cs⟩ : CAS_ID).toString =
      hexEncode raw ++ 58 :: (decDigits size ++ 58 :: (ct ++
        (match cs with
         | some c => 58 :: c
         | none => []))) := by
  obtain ⟨_h32, _h256, _hpos, _hctne, _hlow, _hcol, hcs⟩ := goodRawB_spec h
  unfold CAS_ID.toString
  dsimp only
  rw [pyStr_ofNat]
  cases cs with
  | none => simp [List.cons_append, List.append_assoc]
  | some c =>
    dsimp only
    rw [if_neg (hcs c rfl).1]
    simp [List.cons_append, List.append_assoc]

/-- `int(str(n)) == n`. -/
theorem natFromDigits_decDigits (n : Nat) : natFromDigits (decDigits n) = n :=
  natFromDigits_decDigitsAux (n + 1) n (by omega)

/-- Parsing the canonical string of a well-formed CAS_ID yields it back. -/
theorem from_string_roundtrip_good {raw : List Nat} {size : Nat} {ct : List Nat}
    {cs : Option (List Nat)} (h : goodRawB raw size ct cs = true) :
    CAS_ID.from_string ((⟨hexEncode raw, (size : Int), ct, cs⟩ : CAS_ID).toString) =
      .ok ⟨hexEncode raw, (size : Int), ct, cs⟩ := by
  obtain ⟨h32, h256, hpos, hctne, hlow, hcol, hcs⟩ := goodRawB_spec h
  have hrne : raw ≠ [] := by
    intro hh
    rw [hh] at h32
    simp at h32
  have hA64 : (hexEncode raw).length = 64 := by rw [length_hexEncode, h32]
  have hD : ∀ c ∈ decDigits size, isDigitChar c = true :=
    decDigitsAux_all_digits (size + 1) size
  have hDne : decDigits size ≠ [] := decDigitsAux_ne_nil (size + 1) size (by omega)
  rw [toString_good h]
  unfold CAS_ID.from_string
  have hscan :
      casIdScan (hexEncode raw ++ 58 :: (decDigits size ++ 58 :: (ct ++
          (match cs with
           | some c => 58 :: c
           | none => [])))) =
        some (hexEncode raw, decDigits size, ct, cs) := by
    cases cs with
    | none =>
      exact casIdScan_append hA64 (hexEncode_all_hex h256) hD hDne hcol
        (Or.inl ⟨rfl, rfl⟩)
    | some c =>
      exact casIdScan_append hA64 (hexEncode_all_hex h256) hD hDne hcol
        (Or.inr ⟨c, rfl, (hcs c rfl).2.2, rfl⟩)
  rw [hscan]
  dsimp only
  rw [hexDecode_hexEncode h256]
  dsimp only
  rw [natFromDigits_decDigits size]
  unfold CAS_ID.mk?
  rw [if_neg (by
    push_neg
    refine ⟨hrne, ?_, hctne⟩
    exact Int.natCast_ne_zero.mpr (by omega))]
  rw [if_neg (by omega : ¬ (raw.length ≠ 32))]
  rw [hlow]
  cases cs with
  | none => rfl
  | some c =>
    obtain ⟨hcne, hclow, _⟩ := hcs c rfl
    dsimp only
    rw [if_neg hcne, hclow]
    rfl

/-- C3 (amended): for every CAS_ID whose raw checksum is 32 genuine bytes,
whose size is positive, whose content type is non-empty, lower-case and
colon-free, and whose optional charset is non-empty, lower-case and
newline-free, constructing it, then parsing its canonical string, yields an
equal CAS_ID; and for two such CAS_IDs the canonical strings are equal
exactly when the CAS_IDs (all four fields) are equal.  The colon/newline
conditions are forced by the counterexample: the regular expression splits
fields on `:`. -/
theorem cas_id_string_roundtrip :
    ∀ (raw : List Nat) (size : Nat) (ct : List Nat) (cs : Option (List Nat)),
      goodRawB raw size ct cs = true →
      CAS_ID.mk? raw (size : Int) ct cs = .ok (mkGood raw size ct cs) ∧
      CAS_ID.from_string ((mkGood raw size ct cs).toString) =
        .ok (mkGood raw size ct cs) ∧
      (∀ (raw2 : List Nat) (size2 : Nat) (ct2 : List Nat) (cs2 : Option (List Nat)),
          goodRawB raw2 size2 ct2 cs2 = true →
          ((mkGood raw2 size2 ct2 cs2).toString = (mkGood raw size ct cs).toString ↔
            mkGood raw2 size2 ct2 cs2 = mkGood raw size ct cs)) := by
  intro raw size ct cs h
  obtain ⟨h32, _h256, hpos, hctne, _hlow, _hcol, _hcs⟩ := goodRawB_spec h
  have hrne : raw ≠ [] := by
    intro hh
    rw [hh] at h32
    simp at h32
  have hmk : CAS_ID.mk? raw (size : Int) ct cs = .ok (mkGood raw size ct cs) := by
    unfold CAS_ID.mk? mkGood
    rw [if_neg (by
        push_neg
        exact ⟨hrne, Int.natCast_ne_zero.mpr (by omega), hctne⟩),
      if_neg (by omega : ¬ (raw.length ≠ 32))]
  refine ⟨hmk, ?_, ?_⟩
  · rw [mkGood_eq_of_good h]
    exact from_string_roundtrip_good h
  · intro raw2 size2 ct2 cs2 h2
    constructor
    · intro hstr
      have r1 := from_string_roundtrip_good h2
      have r2 := from_string_roundtrip_good h
      rw [← mkGood_eq_of_good h2] at r1
      rw [← mkGood_eq_of_good h] at r2
      rw [hstr, r2] at r1
      injection r1 with r3
      exact r3.symm
    · intro he
      rw [he]

/-- Witness for C3 at a 32-byte checksum of `0xab` bytes, size 9,
`text/plain`, `utf-8`. -/
theorem cas_id_string_roundtrip_witness :
    goodRawB (List.replicate 32 171) 9 (strBytes ("text/plain"))
        (some (strBytes ("utf-8"))) = true ∧
      (CAS_ID.mk? (List.replicate 32 171) ((9 : Nat) : Int) (strBytes ("text/plain"))
          (some (strBytes ("utf-8"))) =
        .ok (mkGood (List.replicate 32 171) 9 (strBytes ("text/plain"))
          (some (strBytes ("utf-8")))) ∧
      CAS_ID.from_string ((mkGood (List.replicate 32 171) 9 (strBytes ("text/plain"))
          (some (strBytes ("utf-8")))).toString) =
        .ok (mkGood (List.replicate 32 171) 9 (strBytes ("text/plain"))
          (some (strBytes ("utf-8")))) ∧
      (∀ (raw2 : List Nat) (size2 : Nat) (ct2 : List Nat) (cs2 : Option (List Nat)),
          goodRawB raw2 size2 ct2 cs2 = true →
          ((mkGood raw2 size2 ct2 cs2).toString =
              (mkGood (List.replicate 32 171) 9 (strBytes ("text/plain"))
                (some (strBytes ("utf-8")))).toString ↔
            mkGood raw2 size2 ct2 cs2 =
              mkGood (List.replicate 32 171) 9 (strBytes ("text/plain"))
                (some (strBytes ("utf-8")))))) :=
  ⟨by decide,
   cas_id_string_roundtrip (List.replicate 32 171) 9 (strBytes ("text/plain"))
     (some (strBytes ("utf-8"))) (by decide)⟩

/-- C3 counterexample: `cidColon` satisfies every validity condition the
claim states (32-byte checksum, positive size, non-empty content type,
optional charset), yet parsing its canonical string does not return it: the
colon inside the content type `"a:b"` makes the parser read content type
`"a"` and charset `"b"`. -/
theorem cas_id_string_roundtrip_counterexample :
    CAS_ID.mk? (List.replicate 32 0) 1 (strBytes ("a:b")) none = .ok cidColon ∧
      CAS_ID.from_string cidColon.toString ≠ .ok cidColon := by
  constructor
  · rfl
  · intro hcontra
    have heval : CAS_ID.from_string cidColon.toString =
        .ok ⟨hexEncode (List.replicate 32 0), 1, [97], some [98]⟩ := by rfl
    rw [heval] at hcontra
    injection hcontra with h1
    have hne : (⟨hexEncode (List.replicate 32 0), 1, [97], some [98]⟩ : CAS_ID) ≠
        cidColon := by decide
    exact hne h1

/-! ## C8: parse failure kinds -/

/-- A successful scan means the 64-character checksum group passed the hex
gate. -/
theorem casIdScan_some_hex {s g1 g2 g3 : List Nat} {g4 : Option (List Nat)}
    (h : casIdScan s = some (g1, g2, g3, g4)) :
    g1.length = 64 ∧ g1.all isHexChar = true := by
  unfold casIdScan at h
  by_cases hg : (s.take 64).length = 64 ∧ (s.take 64).all isHexChar
  · rw [if_pos hg] at h
    have hg1 : g1 = s.take 64 := by
      split at h <;> simp_all
      obtain ⟨h1, h2⟩ := h
      split at h2 <;> first
        | simp_all
        | (split at h2 <;> simp_all)
    rw [hg1]
    exact ⟨hg.1, hg.2⟩
  · rw [if_neg hg] at h
    simp at h

/-- Any even-length all-hex string decodes. -/
theorem hexDecode_some_of_hex : ∀ (n : Nat) (l : List Nat), l.length ≤ n →
    l.all isHexChar = true → l.length % 2 = 0 → ∃ bs, hexDecode l = some bs := by
  intro n
  induction n with
  | zero =>
    intro l hl _ _
    have hnil : l = [] := List.length_eq_zero.mp (by omega)
    subst hnil
    exact ⟨[], rfl⟩
  | succ m ih =>
    intro l hl hall hev
    cases l with
    | nil => exact ⟨[], rfl⟩
    | cons c1 t =>
      cases t with
      | nil => simp at hev
      | cons c2 rest =>
        simp only [List.all_cons, Bool.and_eq_true] at hall
        obtain ⟨h1, h2, hrest⟩ := hall
        obtain ⟨v1, hv1⟩ := Option.isSome_iff_exists.mp h1
        obtain ⟨v2, hv2⟩ := Option.isSome_iff_exists.mp h2
        obtain ⟨bs, hbs⟩ := ih rest (by simp at hl ⊢; omega) hrest
          (by simp at hev ⊢; omega)
        refine ⟨(v1 * 16 + v2) :: bs, ?_⟩
        unfold hexDecode
        rw [hv1, hv2, hbs]

/-- Every failure of the CAS_ID constructor is an assertion failure. -/
theorem mk?_error_kind {csum : List Nat} {size : Int} {ct : List Nat}
    {cs : Option (List Nat)} {e : PyError}
    (h : CAS_ID.mk? csum size ct cs = .error e) : e = .assertionError := by
  unfold CAS_ID.mk? at h
  split at h
  · injection h with h1
    exact h1.symm
  · split at h
    · injection h with h1
      exact h1.symm
    · simp at h

/-- Every failure of from_string is an AssertionError (the regex-match
assert or a constructor assert); the hex-decode TypeError arm is
unreachable. -/
theorem from_string_error_kind {s : List Nat} {e : PyError}
    (h : CAS_ID.from_string s = .error e) : e = .assertionError := by
  unfold CAS_ID.from_string at h
  cases hscan : casIdScan s with
  | none =>
    rw [hscan] at h
    injection h with h1
    exact h1.symm
  | some g =>
    obtain ⟨g1, g2, g3, g4⟩ := g
    rw [hscan] at h
    dsimp only at h
    obtain ⟨hl, hall⟩ := casIdScan_some_hex hscan
    obtain ⟨bs, hbs⟩ := hexDecode_some_of_hex g1.length g1 (Nat.le_refl _) hall
      (by omega)
    rw [hbs] at h
    dsimp only at h
    exact mk?_error_kind h

/-- Every failure of from_dict is rewritten to BadData by the catch-all. -/
theorem from_dict_error_kind {d : CasDict} {e : PyError}
    (h : CAS_ID.from_dict d = .error e) : e = .badData := by
  unfold CAS_ID.from_dict at h
  cases hd : casIdOfDict d with
  | ok c =>
    rw [hd] at h
    simp at h
  | error e2 =>
    rw [hd] at h
    injection h with h1
    exact h1.symm

/-- C8 (amended): parsing a malformed dict always fails with BadData (the
whole body runs under a catch-all that re-raises BadData), but parsing a
malformed string fails with an uncontrolled AssertionError — from_string
asserts on a failed regex match instead of raising BadData. -/
theorem parse_failure_error_kinds :
    (∀ (d : CasDict) (e : PyError), CAS_ID.from_dict d = .error e → e = .badData) ∧
    (∀ (s : List Nat) (e : PyError),
        CAS_ID.from_string s = .error e → e = .assertionError) :=
  ⟨fun _d _e h => from_dict_error_kind h, fun _s _e h => from_string_error_kind h⟩

/-- Witness for C8: a dict missing every key fails with BadData; the
malformed string `"zz"` fails with AssertionError. -/
theorem parse_failure_error_kinds_witness :
    (CAS_ID.from_dict ⟨none, none, none, none⟩ = .error .badData ∧
      PyError.badData = .badData) ∧
    (CAS_ID.from_string (strBytes ("zz")) = .error .assertionError ∧
      PyError.assertionError = .assertionError) :=
  ⟨⟨by rfl, parse_failure_error_kinds.1 ⟨none, none, none, none⟩ .badData (by rfl)⟩,
   ⟨by rfl, parse_failure_error_kinds.2 (strBytes ("zz")) .assertionError (by rfl)⟩⟩

/-- C8 counterexample: the malformed string `"zz"` makes from_string raise
AssertionError, which is not the BadData error the claim requires for every
malformed input. -/
theorem parse_failure_error_kinds_counterexample :
    CAS_ID.from_string (strBytes ("zz")) = .error .assertionError ∧
      PyError.assertionError ≠ PyError.badData :=
  ⟨by rfl, by decide⟩
